import Mathlib

/-!
Verification of the disk-detection grain (`salt/grains/disks.py`).

The module enumerates physical storage devices and classifies each as
rotational (HDD) or solid-state (SSD) through three platform branches:

* FreeBSD: parse the output of `geom disk list` into per-device attribute
  records (`_freebsd_geom`, `parse_geom_attribs`, `_datavalue`);
* Linux: read the per-device `/sys/block/NAME/queue/rotational` flags
  (`_linux_disks`);
* Windows: parse the table produced by a `wmic` query (`_windows_disks`).

The embedding below translates the Python functions into Lean, modelling the
Python string primitives the code relies on (`str.split`, `str.splitlines`,
`str.isdigit`, `int(...)`, `re.search` of the fixed patterns used).  External
effects are made explicit: the text of the external command's stdout, the
command's exit status, and the glob result together with each flag file's
contents (or its I/O failure) are inputs of the embedded functions; a Python
exception escaping a function is modelled as `Except.error`.
-/

set_option maxRecDepth 8192

namespace Disks

/-! ### Python string primitives -/

/-- The whitespace characters of Python's `str.split()` and of the regex
class `\s` in ASCII (space, tab, newline, carriage return, vertical tab,
form feed).  The inputs handled by the module are ASCII, so the additional
Unicode whitespace recognised by Python is not modelled. -/
def pyIsSpace (c : Char) : Bool :=
  c = ' ' || c = '\t' || c = '\n' || c = '\r' || c = Char.ofNat 11 || c = Char.ofNat 12

/-- The line-break characters of Python's `str.splitlines`. -/
def isLineBreak (c : Char) : Bool :=
  c = '\n' || c = '\r' || c = Char.ofNat 11 || c = Char.ofNat 12 ||
  c = Char.ofNat 28 || c = Char.ofNat 29 || c = Char.ofNat 30 ||
  c = Char.ofNat 133 || c = Char.ofNat 8232 || c = Char.ofNat 8233

/-- Helper for `pySplitLines`: `cur` is the reversed current line. -/
def pySplitLinesAux (cur : List Char) : List Char → List (List Char)
  | [] => if cur.isEmpty then [] else [cur.reverse]
  | '\r' :: '\n' :: rest => cur.reverse :: pySplitLinesAux [] rest
  | c :: rest =>
    if isLineBreak c then cur.reverse :: pySplitLinesAux [] rest
    else pySplitLinesAux (c :: cur) rest

/-- Python `s.splitlines()`: split at line breaks (`\r\n` counts as one
break), with no trailing empty line. -/
def pySplitLines (s : String) : List String :=
  (pySplitLinesAux [] s.toList).map fun cs => String.mk cs

/-- Helper for `pySplitWs`: Python `s.split()` (no separator argument)
splits on runs of whitespace and produces no empty tokens. -/
def pySplitWsAux (cur : List Char) : List Char → List String
  | [] => if cur.isEmpty then [] else [String.mk cur.reverse]
  | c :: rest =>
    if pyIsSpace c then
      if cur.isEmpty then pySplitWsAux [] rest
      else String.mk cur.reverse :: pySplitWsAux [] rest
    else pySplitWsAux (c :: cur) rest

/-- Python `s.split()` with no arguments. -/
def pySplitWs (s : String) : List String :=
  pySplitWsAux [] s.toList

/-- Python `s.split(sep)` for a one-character separator `sep` (used by the
code as `device.split('\n')` and `entry.split('/')`): split at every
occurrence of the separator, keeping empty fields. -/
def pySplitChar (sep : Char) (cur : List Char) : List Char → List (List Char)
  | [] => [cur.reverse]
  | c :: rest =>
    if c = sep then cur.reverse :: pySplitChar sep [] rest
    else pySplitChar sep (c :: cur) rest

/-- Python `s.split('\n\n')` (used by the code on the geom output): split at
every non-overlapping occurrence of a double newline, keeping empty fields. -/
def splitBlank (cur : List Char) : List Char → List (List Char)
  | '\n' :: '\n' :: rest => cur.reverse :: splitBlank [] rest
  | c :: rest => splitBlank (c :: cur) rest
  | [] => [cur.reverse]

/-- Python `s.isdigit()` on the ASCII strings handled here: non-empty and
all characters are decimal digits. -/
def pyIsDigit (s : String) : Bool :=
  !s.toList.isEmpty && s.toList.all Char.isDigit

/-- Does the second character list start with the first? -/
def listStarts : List Char → List Char → Bool
  | [], _ => true
  | _ :: _, [] => false
  | a :: as, c :: cs => a = c && listStarts as cs

/-- Python `s.startswith(pre)`. -/
def pyStartsWith (s pre : String) : Bool :=
  listStarts pre.toList s.toList

/-- Python `file.read(1)`: the first character of the file's text, or the
empty string at end of file. -/
def pyRead1 (s : String) : String :=
  String.mk (s.toList.take 1)

/-- Strip Python whitespace from both ends of a character list. -/
def pyStrip (cs : List Char) : List Char :=
  ((cs.dropWhile pyIsSpace).reverse.dropWhile pyIsSpace).reverse

/-- Digit-run parser for Python `int(...)`: a non-empty run of decimal
digits in which a single underscore may appear between two digits.
`prevDigit` records whether the previous character was a digit. -/
def pyIntDigits (acc : Nat) (prevDigit : Bool) : List Char → Option Nat
  | [] => if prevDigit then some acc else none
  | c :: cs =>
    if c.isDigit then pyIntDigits (acc * 10 + (c.toNat - 48)) true cs
    else if c = '_' && prevDigit then
      match cs with
      | [] => none
      | d :: _ => if d.isDigit then pyIntDigits acc false cs else none
    else none

/-- Python `int(s)` on a string: surrounding whitespace is stripped, an
optional sign is allowed, then a digit run; `none` models the `ValueError`
raised on any other shape. -/
def pyInt (s : String) : Option Int :=
  match pyStrip s.toList with
  | '+' :: cs => (pyIntDigits 0 false cs).map Int.ofNat
  | '-' :: cs => (pyIntDigits 0 false cs).map fun n => -(Int.ofNat n : Int)
  | cs => (pyIntDigits 0 false cs).map Int.ofNat

/-! ### FreeBSD branch: `_geomconsts`, `_datavalue`, `parse_geom_attribs` -/

/-- A Python value stored in a device record: the code stores raw strings,
integers from successful coercions, and `None` for failed coercions. -/
inductive PyVal where
  | str (s : String)
  | int (n : Int)
  | pynone
  deriving DecidableEq

/-- A coercion descriptor from `_geomconsts._datatypes`: either the string
tag `'try_int'` or a tuple `('re_int', pattern)`. -/
inductive DType where
  | tryInt
  | reInt (pat : String)
  deriving DecidableEq

/-- `_geom_attribs`: the public attribute names of `_geomconsts`, in class
declaration order (`Geom name`, `Mediasize`, `Sectorsize`, `Stripesize`,
`Stripeoffset`, `descr`, `lunid`, `lunname`, `ident`, `rotationrate`). -/
def geomAttribs : List String :=
  ["Geom name", "Mediasize", "Sectorsize", "Stripesize", "Stripeoffset",
   "descr", "lunid", "lunname", "ident", "rotationrate"]

/-- `_geomconsts._aliases`: legacy alias keys. -/
def geomAliases : String → Option String
  | "descr" => some "device_model"
  | "ident" => some "serial_number"
  | "rotationrate" => some "media_RPM"
  | "lunid" => some "WWN"
  | _ => none

/-- `_geomconsts._datatypes`: the per-key coercion descriptors.  `Mediasize`
is declared with the tuple `('re_int', r'(\d+)')`; the four others carry the
string tag `'try_int'`. -/
def geomDatatypes : String → Option DType
  | "Mediasize" => some (DType.reInt "(\\d+)")
  | "Sectorsize" => some DType.tryInt
  | "Stripesize" => some DType.tryInt
  | "Stripeoffset" => some DType.tryInt
  | "rotationrate" => some DType.tryInt
  | _ => none

/-- `_datavalue(datatype, data)`.  The first branch compares the descriptor
with the string `'try_int'`.  The second branch of the source is
`elif datatype is tuple and datatype[0] == 're_int'`: `is` compares object
identity with the builtin type object `tuple`, and the values reaching this
function are `None`, the string `'try_int'` or a tuple *instance* such as
`('re_int', r'(\d+)')` — never the type object itself — so that test is
always false and every non-`'try_int'` descriptor falls through to the final
`else`, which returns the raw string unchanged. -/
def _datavalue (datatype : Option DType) (data : String) : PyVal :=
  match datatype with
  | some DType.tryInt =>
    match pyInt data with
    | some n => PyVal.int n
    | none => PyVal.pynone
  | _ => PyVal.str data

/-- Consume `key` from the front of `cs`, returning the remainder. -/
def consumeKey : List Char → List Char → Option (List Char)
  | [], cs => some cs
  | _ :: _, [] => none
  | a :: as, c :: cs => if a = c then consumeKey as cs else none

/-- One attempt of the pattern `<key>:\s(.*)` at the front of `cs`: the key,
a colon, one whitespace character, then the capture group takes the rest of
the line. -/
def matchAt (key : List Char) (cs : List Char) : Option (List Char) :=
  match consumeKey (key ++ [':']) cs with
  | some (c :: rest) => if pyIsSpace c then some rest else none
  | _ => none

/-- `re.search(r'<key>:\s(.*)', line)`: try the pattern at each position
from the left, returning the capture of the leftmost match.  The pattern is
not anchored, so the key may begin anywhere in the line. -/
def reSearch (key : List Char) : List Char → Option (List Char)
  | [] => none
  | c :: cs =>
    match matchAt key (c :: cs) with
    | some r => some r
    | none => reSearch key cs

/-- The attribute dictionary `tmp` accumulated by `parse_geom_attribs` for
one device block: for each line and each attribute in `_geom_attribs` order,
on a match store the coerced value under the attribute key and, when an
alias exists, under the alias key as well.  Later lines overwrite earlier
values of the same key. -/
def geomTmp (device : String) : String → Option PyVal :=
  (pySplitChar '\n' [] device.toList).foldl
    (fun tmp line =>
      geomAttribs.foldl
        (fun tmp attrib =>
          match reSearch attrib.toList line with
          | some rest =>
            let value := _datavalue (geomDatatypes attrib) (String.mk rest)
            let tmp1 : String → Option PyVal :=
              fun k => if k = attrib then some value else tmp k
            match geomAliases attrib with
            | some al => fun k => if k = al then some value else tmp1 k
            | none => tmp1
          | none => tmp)
        tmp)
    (fun _ => none)

/-- The record finally stored for a block: `tmp` after
`tmp.pop(_geomconsts.GEOMNAME)` removed the device-name entry. -/
def geomRecord (device : String) : String → Option PyVal :=
  fun k => if k = "Geom name" then none else geomTmp device k

/-- The mutable result of `_freebsd_geom`: `disks` maps a device name to its
attribute record, `SSDs` lists the names classified as solid-state. -/
structure GeomRet where
  disks : String → Option (String → Option PyVal)
  SSDs : List String

/-- `parse_geom_attribs(device)` acting on the enclosing `ret`:
`tmp.pop(_geomconsts.GEOMNAME)` raises `KeyError` when no `Geom name` line
was found (no default is passed); a name beginning with `cd` leaves `ret`
unchanged; otherwise the popped record is stored under the name and the name
is appended to `SSDs` exactly when `tmp.get(ROTATIONRATE) == 0`, i.e. when
the stored rotation-rate value is the integer `0` (a string, `None`, or a
missing key compare unequal to `0` in Python).  The `Geom name` value is a
raw string because `_datatypes` has no entry for it; the `AttributeError`
cases are therefore unreachable and model `name.startswith` being called on
a non-string. -/
def parse_geom_attribs (ret : GeomRet) (device : String) : Except String GeomRet :=
  match geomTmp device "Geom name" with
  | none => Except.error "KeyError"
  | some (PyVal.int _) => Except.error "AttributeError"
  | some PyVal.pynone => Except.error "AttributeError"
  | some (PyVal.str name) =>
    if pyStartsWith name "cd" then Except.ok ret
    else
      Except.ok
        { disks := fun k => if k = name then some (geomRecord device) else ret.disks k,
          SSDs :=
            if geomRecord device "rotationrate" = some (PyVal.int 0)
            then ret.SSDs ++ [name] else ret.SSDs }

/-- `_freebsd_geom()` as a function of the text written by
`geom disk list`: split on blank lines and feed every block to
`parse_geom_attribs`; an exception raised by a block aborts the whole
call. -/
def _freebsd_geom (devicesOut : String) : Except String GeomRet :=
  (splitBlank [] devicesOut.toList).foldlM
    (fun ret block => parse_geom_attribs ret (String.mk block))
    { disks := fun _ => none, SSDs := [] }

/-! ### Linux branch: `_linux_disks` -/

/-- The result shape of the Linux and Windows branches: two plain lists of
device identifiers. -/
structure ListRet where
  disks : List String
  SSDs : List String
  deriving DecidableEq

/-- One discovered flag source: the globbed path (such as
`/sys/block/sda/queue/rotational`) together with the file's text, or
`Except.error` when opening or reading it raises an `IOError`. -/
def LinuxEntry : Type := String × Except String String

/-- The body of the `_linux_disks` loop for one glob entry: open and read
the flag file (a raised `IOError` propagates — the loop has no handler),
take the device name from `entry.split('/')[3]`, read one character, and
classify: `'0'` appends to `SSDs`, `'1'` appends to `disks`, anything else
is only logged. -/
def linuxStep (ret : ListRet) (e : LinuxEntry) : Except String ListRet := do
  let text ← e.2
  match (pySplitChar '/' [] e.1.toList)[3]? with
  | none => Except.error "IndexError"
  | some device =>
    let flag := pyRead1 text
    if flag = "0" then Except.ok { ret with SSDs := ret.SSDs ++ [String.mk device] }
    else if flag = "1" then Except.ok { ret with disks := ret.disks ++ [String.mk device] }
    else Except.ok ret

/-- `_linux_disks()` as a function of the glob result and the per-entry file
contents: fold the loop body over the entries; an exception raised for one
entry aborts the whole call. -/
def _linux_disks (entries : List LinuxEntry) : Except String ListRet :=
  entries.foldlM linuxStep { disks := [], SSDs := [] }

/-- Whether an `Except` value is a normal return rather than a raised
exception. -/
def exceptIsOk : Except String ListRet → Bool
  | Except.ok _ => true
  | Except.error _ => false

/-! ### Windows branch: `_windows_disks` -/

/-- The device identifier template `r'\\.\PhysicalDrive'` applied to the
first token of a row. -/
def winDevice (index : String) : String :=
  "\\\\.\\PhysicalDrive" ++ index

/-- The shape test of the loop: a line is a valid data row when
`line.split()` yields exactly two tokens and both satisfy `isdigit()`
(the negation of the `continue` guard). -/
def isValidRow (line : String) : Bool :=
  match pySplitWs line with
  | [a, b] => pyIsDigit a && pyIsDigit b
  | _ => false

/-- The body of the `_windows_disks` loop for one stdout line: rows failing
the shape test are skipped; for a valid row the media-type token is compared
by string equality with `'3'` (append the drive identifier to `disks`) and
`'4'` (append it to `SSDs`); any other token is only logged. -/
def winStep (ret : ListRet) (line : String) : ListRet :=
  match pySplitWs line with
  | [a, b] =>
    if pyIsDigit a && pyIsDigit b then
      if b = "3" then { ret with disks := ret.disks ++ [winDevice a] }
      else if b = "4" then { ret with SSDs := ret.SSDs ++ [winDevice a] }
      else ret
    else ret
  | _ => ret

/-- `_windows_disks()` as a function of the wmic command's exit status and
stdout: a non-zero status only logs and returns the initial empty result;
otherwise the loop body is folded over `stdout.splitlines()`. -/
def _windows_disks (retcode : Int) (sout : String) : ListRet :=
  if retcode ≠ 0 then { disks := [], SSDs := [] }
  else (pySplitLines sout).foldl winStep { disks := [], SSDs := [] }

/-! ### Derived views used to state the claims -/

/-- The tokens of a valid data row, when the line is one. -/
def rowKey (line : String) : Option (String × String) :=
  match pySplitWs line with
  | [a, b] => if pyIsDigit a && pyIsDigit b then some (a, b) else none
  | _ => none

/-- The drive identifier contributed to `disks` by one stdout line, if
any. -/
def rows3f (l : String) : Option String :=
  match rowKey l with
  | some (a, b) => if b = "3" then some (winDevice a) else none
  | none => none

/-- The drive identifier contributed to `SSDs` by one stdout line, if
any. -/
def rows4f (l : String) : Option String :=
  match rowKey l with
  | some (a, b) => if b = "4" then some (winDevice a) else none
  | none => none

/-- The first token of a line, when the line is a valid data row. -/
def winTokenf (l : String) : Option String :=
  (rowKey l).map Prod.fst

/-- The drive identifiers contributed to `disks` by a list of stdout
lines. -/
def rows3 (lines : List String) : List String :=
  lines.filterMap rows3f

/-- The drive identifiers contributed to `SSDs` by a list of stdout
lines. -/
def rows4 (lines : List String) : List String :=
  lines.filterMap rows4f

/-- The first tokens of the valid data rows among a list of lines. -/
def winTokens (lines : List String) : List String :=
  lines.filterMap winTokenf

/-- The device name derived from one glob entry's path (segment 3 of the
path), when the path has one. -/
def linuxName (e : LinuxEntry) : Option String :=
  ((pySplitChar '/' [] e.1.toList)[3]?).map fun cs => String.mk cs

/-- The device name appended to `disks` by one Linux entry, if any. -/
def linuxHf (e : LinuxEntry) : Option String :=
  match e.2, linuxName e with
  | Except.ok s, some d => if pyRead1 s = "1" then some d else none
  | _, _ => none

/-- The device name appended to `SSDs` by one Linux entry, if any. -/
def linuxSf (e : LinuxEntry) : Option String :=
  match e.2, linuxName e with
  | Except.ok s, some d => if pyRead1 s = "0" then some d else none
  | _, _ => none

/-- The device names appended to `disks` by a list of Linux entries. -/
def linuxH (entries : List LinuxEntry) : List String :=
  entries.filterMap linuxHf

/-- The device names appended to `SSDs` by a list of Linux entries. -/
def linuxS (entries : List LinuxEntry) : List String :=
  entries.filterMap linuxSf

/-- The device names derived from all entries of a Linux scan. -/
def linuxNames (entries : List LinuxEntry) : List String :=
  entries.filterMap linuxName

/-- Boolean disjointness of two lists of device names. -/
def disjointB (as bs : List String) : Bool :=
  as.all fun a => !bs.contains a

/-- Modelled from the spec: the secondary pattern `r'(\d+)'` of the
regex-integer coercion extracts the first maximal run of digits from the
text; the spec's regex-integer coercion parses that run as a base-10
integer.  (The source's `_datavalue` never reaches its regex branch; this
definition states what that branch was declared to do, for comparison.) -/
def firstDigitRun : List Char → Option (List Char)
  | [] => none
  | c :: rest =>
    if c.isDigit then some (c :: rest.takeWhile Char.isDigit)
    else firstDigitRun rest

/-- Modelled from the spec: the full regex-integer coercion — extract the
first digit run and parse it as a base-10 integer. -/
def reIntIntended (data : String) : Option Int :=
  (firstDigitRun data.toList).bind fun run => pyInt (String.mk run)

/-- The base-10 value of a digit string (used to speak about the numeric
value of a media-type token independently of its spelling). -/
def digitsVal (s : String) : Nat :=
  s.toList.foldl (fun acc c => acc * 10 + (c.toNat - 48)) 0

/-- The SSD list of a FreeBSD result, or `[]` when the call raised. -/
def geomSSDsOf : Except String GeomRet → List String
  | Except.ok r => r.SSDs
  | Except.error _ => []

/-- Whether a FreeBSD result holds a record for the given name (`false`
when the call raised). -/
def geomDisksHas : Except String GeomRet → String → Bool
  | Except.ok r, n => (r.disks n).isSome
  | Except.error _, _ => false

/-! ### Basic lemmas -/

theorem except_error_bind {α β : Type} (m : String) (f : α → Except String β) :
    (Except.error m >>= f) = Except.error m := rfl

theorem except_ok_bind {α β : Type} (a : α) (f : α → Except String β) :
    (Except.ok a >>= f) = f a := rfl

theorem foldlM_except_cons {α β : Type} (f : β → α → Except String β) (b : β)
    (a : α) (as : List α) :
    List.foldlM f b (a :: as) = f b a >>= fun b2 => List.foldlM f b2 as := rfl

/-! ### Claim theorems -/

/-- C1: the claim says the `Mediasize` coercion extracts the digits with the
secondary pattern and stores a base-10 integer, never the raw string.  The
code does the opposite: `_datavalue`'s regex branch tests `datatype is
tuple`, which is false for the tuple instance `('re_int', r'(\d+)')`, so the
raw untrimmed string is stored.  The third conjunct evaluates the coercion
the declaration intended (modelled from the spec) on the same text, showing
the divergence. -/
theorem mediasize_coercion_falls_through :
    (∀ data, _datavalue (geomDatatypes "Mediasize") data = PyVal.str data) ∧
    geomTmp "Geom name: ada0\nMediasize: 250059350016 (233G)" "Mediasize"
      = some (PyVal.str "250059350016 (233G)") ∧
    reIntIntended "250059350016 (233G)" = some 250059350016 :=
  ⟨fun _ => rfl, by decide, by decide⟩

/-- C2: the claim says a block with no resolvable device name is silently
skipped and `disks()` does not raise.  In the code `tmp.pop(GEOMNAME)` is
called without a default, so the empty block produced by a trailing
blank-line split raises `KeyError` and the whole call aborts, losing the
record already parsed from the first block. -/
theorem trailing_blank_block_keyerror :
    _freebsd_geom "Geom name: ada0\n\n" = Except.error "KeyError" := rfl

/-- C8: with a non-zero exit status from the wmic query, `_windows_disks`
returns the empty inventory whatever stdout holds, and raises nothing. -/
theorem windows_nonzero_exit_empty (retcode : Int) (sout : String)
    (h : retcode ≠ 0) :
    _windows_disks retcode sout = { disks := [], SSDs := [] } := by
  unfold _windows_disks
  rw [if_pos h]

theorem windows_nonzero_exit_empty_witness :
    _windows_disks 1 "0 3\n1 4" = { disks := [], SSDs := [] } :=
  windows_nonzero_exit_empty 1 "0 3\n1 4" (by decide)

/-- C10: a row whose second token is purely numeric but carries leading
zeros (numeric value 3 or 4, length at least two, starting with `0`) passes
the two-numeric-token shape test, yet the string comparisons with `'3'` and
`'4'` both fail, so the row is skipped and the result is unchanged. -/
theorem leading_zero_mediatype_skipped (ret : ListRet) (line a b : String)
    (hsplit : pySplitWs line = [a, b]) (ha : pyIsDigit a = true)
    (hb : pyIsDigit b = true) (hz : pyRead1 b = "0") (hlen : 2 ≤ b.length)
    (hval : digitsVal b = 3 ∨ digitsVal b = 4) :
    isValidRow line = true ∧ winStep ret line = ret := by
  have h3 : b ≠ "3" := by rintro rfl; exact absurd hlen (by decide)
  have h4 : b ≠ "4" := by rintro rfl; exact absurd hlen (by decide)
  constructor
  · simp [isValidRow, hsplit, ha, hb]
  · simp [winStep, hsplit, ha, hb, h3, h4]

theorem leading_zero_mediatype_skipped_witness :
    isValidRow "0 03" = true ∧
    winStep { disks := [], SSDs := [] } "0 03" = { disks := [], SSDs := [] } :=
  leading_zero_mediatype_skipped { disks := [], SSDs := [] } "0 03" "0" "03"
    (by decide) (by decide) (by decide) (by decide) (by decide)
    (Or.inl (by decide))

/-- C4: for a flag source whose open and read succeed, the device name is
the fixed positional segment at index 3 of the path; the flag `'0'` appends
that name only to `SSDs`, `'1'` only to `disks`, and any other value to
neither — the flag content never becomes the device name. -/
theorem linux_flag_classification (ret : ListRet) (path content : String)
    (dev : List Char)
    (hdev : (pySplitChar '/' [] path.toList)[3]? = some dev) :
    linuxStep ret (path, Except.ok content) =
      Except.ok
        { disks := if pyRead1 content = "1" then ret.disks ++ [String.mk dev]
                   else ret.disks,
          SSDs := if pyRead1 content = "0" then ret.SSDs ++ [String.mk dev]
                  else ret.SSDs } := by
  have h : linuxStep ret (path, Except.ok content) =
      (match (pySplitChar '/' [] path.toList)[3]? with
       | none => Except.error "IndexError"
       | some device =>
         if pyRead1 content = "0" then
           Except.ok { ret with SSDs := ret.SSDs ++ [String.mk device] }
         else if pyRead1 content = "1" then
           Except.ok { ret with disks := ret.disks ++ [String.mk device] }
         else Except.ok ret) := rfl
  rw [h, hdev]
  by_cases h0 : pyRead1 content = "0"
  · simp [h0]
  · by_cases h1 : pyRead1 content = "1"
    · simp [h0, h1]
    · simp [h0, h1]

theorem linux_flag_classification_witness :
    linuxStep { disks := [], SSDs := [] }
        ("/sys/block/sda/queue/rotational", Except.ok "0") =
      Except.ok { disks := [], SSDs := ["sda"] } := by
  have h := linux_flag_classification { disks := [], SSDs := [] }
    "/sys/block/sda/queue/rotational" "0" "sda".toList (by decide)
  rw [h]
  rfl

/-- C5 counterexample: an `IOError` while opening the first device's flag
source makes the fold abort — `_linux_disks` raises instead of skipping the
device and scanning `sdb`. -/
theorem linux_io_error_aborts_cex :
    _linux_disks [("/sys/block/sda/queue/rotational", Except.error "IOError"),
      ("/sys/block/sdb/queue/rotational", Except.ok "1")]
      = Except.error "IOError" := rfl

theorem linux_fold_error (p msg : String) :
    ∀ (entries : List LinuxEntry) (ret : ListRet),
      (p, Except.error msg) ∈ entries →
      exceptIsOk (List.foldlM linuxStep ret entries) = false := by
  intro entries
  induction entries with
  | nil => intro ret h; cases h
  | cons e es ih =>
    intro ret h
    rw [foldlM_except_cons]
    rcases List.mem_cons.mp h with he | hes
    · rw [← he]
      rfl
    · cases hstep : linuxStep ret e with
      | error m => rw [except_error_bind]; rfl
      | ok ret2 =>
        rw [except_ok_bind]
        exact ih ret2 hes

/-- C5 amended: the loop body has no exception handler, so an I/O failure
opening or reading any device's flag source propagates out of
`_linux_disks`: the whole scan aborts and no inventory (partial or
otherwise) is returned. -/
theorem linux_io_error_propagates (entries : List LinuxEntry)
    (h : ∃ p msg, (p, Except.error msg) ∈ entries) :
    exceptIsOk (_linux_disks entries) = false := by
  obtain ⟨p, msg, hmem⟩ := h
  exact linux_fold_error p msg entries { disks := [], SSDs := [] } hmem

theorem linux_io_error_propagates_witness :
    exceptIsOk (_linux_disks
      [("/sys/block/sda/queue/rotational", Except.error "IOError"),
       ("/sys/block/sdb/queue/rotational", Except.ok "1")]) = false :=
  linux_io_error_propagates _
    ⟨"/sys/block/sda/queue/rotational", "IOError", List.mem_cons_self _ _⟩

/-- C3 counterexample: the line `xdescr: foo`, whose key field is the
unrelated longer key `xdescr`, is matched by the search for `descr`: the
value `foo` is stored under `descr` and under its alias. -/
theorem suffix_key_match_cex :
    geomTmp "xdescr: foo" "descr" = some (PyVal.str "foo") ∧
    geomTmp "xdescr: foo" "device_model" = some (PyVal.str "foo") := by
  decide

theorem consumeKey_append (xs ys : List Char) :
    consumeKey xs (xs ++ ys) = some ys := by
  induction xs with
  | nil => rfl
  | cons a as ih => simp [consumeKey, ih]

theorem matchAt_self (key rest : List Char) (c : Char)
    (hc : pyIsSpace c = true) :
    matchAt key (key ++ ':' :: c :: rest) = some rest := by
  have h : key ++ ':' :: c :: rest = (key ++ [':']) ++ (c :: rest) := by simp
  unfold matchAt
  rw [h, consumeKey_append]
  simp [hc]

theorem reSearch_isSome_base (key rest : List Char) (c : Char)
    (hc : pyIsSpace c = true) :
    (reSearch key (key ++ ':' :: c :: rest)).isSome = true := by
  cases hk : key ++ ':' :: c :: rest with
  | nil => exact absurd hk (by simp)
  | cons a as =>
    have hm : matchAt key (a :: as) = some rest := by
      rw [← hk]; exact matchAt_self key rest c hc
    simp [reSearch, hm]

theorem reSearch_isSome_cons (key : List Char) (a : Char) (as : List Char)
    (h : (reSearch key as).isSome = true) :
    (reSearch key (a :: as)).isSome = true := by
  simp only [reSearch]
  cases hm : matchAt key (a :: as) with
  | some r => simp
  | none => simpa using h

/-- C3 amended: `re.search` is not anchored, so the key pattern matches
anywhere in the line: whenever the line contains the key followed by a colon
and a whitespace character — in particular when the key is a suffix or inner
substring of a longer unrelated key — the attribute search succeeds and a
value is stored under the shorter key. -/
theorem unanchored_key_search_matches (key pre rest : List Char) (c : Char)
    (hc : pyIsSpace c = true) :
    (reSearch key (pre ++ key ++ ':' :: c :: rest)).isSome = true := by
  induction pre with
  | nil => simpa using reSearch_isSome_base key rest c hc
  | cons p ps ih => simpa using reSearch_isSome_cons key p _ ih

theorem unanchored_key_search_matches_witness :
    (reSearch "descr".toList
      (['x'] ++ "descr".toList ++ ':' :: ' ' :: "foo".toList)).isSome = true :=
  unanchored_key_search_matches "descr".toList ['x'] "foo".toList ' ' (by decide)

/-- C6: with exit status 0, a stdout line is a valid data row exactly when
`line.split()` yields two all-digit tokens; a valid row with media-type
token `'3'` appends `\\.\PhysicalDrive<index>` only to `disks`, one with
`'4'` only to `SSDs`, and every other line leaves the result unchanged. -/
theorem windows_row_classification (ret : ListRet) (line : String) :
    (isValidRow line = false → winStep ret line = ret) ∧
    (∀ a b, pySplitWs line = [a, b] → pyIsDigit a = true → pyIsDigit b = true →
      isValidRow line = true ∧
      winStep ret line =
        (if b = "3" then { ret with disks := ret.disks ++ [winDevice a] }
         else if b = "4" then { ret with SSDs := ret.SSDs ++ [winDevice a] }
         else ret)) := by
  constructor
  · intro h
    cases hs : pySplitWs line with
    | nil => simp [winStep, hs]
    | cons a l1 =>
      cases l1 with
      | nil => simp [winStep, hs]
      | cons b l2 =>
        cases l2 with
        | nil =>
          unfold isValidRow at h
          rw [hs] at h
          have h2 : (pyIsDigit a && pyIsDigit b) = false := by simpa using h
          simp [winStep, hs, h2]
        | cons c l3 => simp [winStep, hs]
  · intro a b hsplit ha hb
    constructor
    · simp [isValidRow, hsplit, ha, hb]
    · simp [winStep, hsplit, ha, hb]

theorem windows_row_classification_witness :
    winStep { disks := [], SSDs := [] } "0 3" =
      { disks := ["\\\\.\\PhysicalDrive0"], SSDs := [] } := by
  have h := (windows_row_classification { disks := [], SSDs := [] } "0 3").2
    "0" "3" (by decide) (by decide) (by decide)
  rw [h.2]
  decide

/-- C7: for a block whose accumulated attributes resolve a device name not
starting with `cd`, the name is always inserted into the `disks` mapping
(bound to the popped record), and it is appended to `SSDs` exactly when the
stored rotation-rate value is the integer `0`; any other stored value, or
its absence, leaves `SSDs` unchanged. -/
theorem freebsd_ssd_classification (ret : GeomRet) (device name : String)
    (hname : geomTmp device "Geom name" = some (PyVal.str name))
    (hcd : pyStartsWith name "cd" = false) :
    ∃ r, parse_geom_attribs ret device = Except.ok r ∧
      r.disks name = some (geomRecord device) ∧
      r.SSDs = (if geomRecord device "rotationrate" = some (PyVal.int 0)
                then ret.SSDs ++ [name] else ret.SSDs) := by
  unfold parse_geom_attribs
  rw [hname]
  simp only [hcd, Bool.false_eq_true, if_false]
  exact ⟨_, rfl, by simp, rfl⟩

theorem freebsd_ssd_classification_witness :
    geomSSDsOf (parse_geom_attribs { disks := fun _ => none, SSDs := [] }
      "Geom name: ada0\nrotationrate: 0") = ["ada0"] ∧
    geomDisksHas (parse_geom_attribs { disks := fun _ => none, SSDs := [] }
      "Geom name: ada0\nrotationrate: 0") "ada0" = true := by
  obtain ⟨r, h1, h2, h3⟩ := freebsd_ssd_classification
    { disks := fun _ => none, SSDs := [] } "Geom name: ada0\nrotationrate: 0"
    "ada0" (by decide) (by decide)
  rw [h1]
  constructor
  · show r.SSDs = ["ada0"]
    rw [h3, if_pos (by decide)]
    rfl
  · show (r.disks "ada0").isSome = true
    rw [h2]
    rfl

theorem mem_filterMap_to_g {α : Type} (g gC : α → Option String)
    (key : String → String)
    (hC : ∀ l x, gC l = some x → ∃ t, g l = some t ∧ x = key t)
    (hkey : ∀ t u, key t = key u → t = u)
    (ls : List α) (t : String) (hmem : key t ∈ ls.filterMap gC) :
    t ∈ ls.filterMap g := by
  rw [List.mem_filterMap] at hmem ⊢
  obtain ⟨l2, hl2, hgl2⟩ := hmem
  obtain ⟨t3, hgt3, hk⟩ := hC l2 _ hgl2
  refine ⟨l2, hl2, ?_⟩
  rw [hgt3, hkey t3 t hk.symm]

theorem filterMap_key_disjoint {α : Type} (g gA gB : α → Option String)
    (key : String → String)
    (hkey : ∀ t u, key t = key u → t = u)
    (hA : ∀ l x, gA l = some x → ∃ t, g l = some t ∧ x = key t)
    (hB : ∀ l x, gB l = some x → ∃ t, g l = some t ∧ x = key t)
    (hAB : ∀ l x y, gA l = some x → gB l = some y → False) :
    ∀ lines : List α, (lines.filterMap g).Nodup →
      ∀ x, x ∈ lines.filterMap gA → x ∈ lines.filterMap gB → False := by
  intro lines
  induction lines with
  | nil => intro _ x hx; simp at hx
  | cons l ls ih =>
    intro hnd x hxA hxB
    rw [List.filterMap_cons] at hxA hxB hnd
    cases hg : g l with
    | none =>
      rw [hg] at hnd
      have hgA : gA l = none := by
        cases hA2 : gA l with
        | none => rfl
        | some xa =>
          obtain ⟨t, ht, _⟩ := hA l xa hA2
          rw [hg] at ht
          exact Option.noConfusion ht
      have hgB : gB l = none := by
        cases hB2 : gB l with
        | none => rfl
        | some xb =>
          obtain ⟨t, ht, _⟩ := hB l xb hB2
          rw [hg] at ht
          exact Option.noConfusion ht
      rw [hgA] at hxA
      rw [hgB] at hxB
      exact ih hnd x hxA hxB
    | some t =>
      rw [hg] at hnd
      rw [List.nodup_cons] at hnd
      obtain ⟨htn, hnd2⟩ := hnd
      cases hA2 : gA l with
      | none =>
        rw [hA2] at hxA
        cases hB2 : gB l with
        | none =>
          rw [hB2] at hxB
          exact ih hnd2 x hxA hxB
        | some xb =>
          rw [hB2] at hxB
          rcases List.mem_cons.mp hxB with rfl | hxB2
          · obtain ⟨t2, ht2, hk2⟩ := hB l x hB2
            have ht2t : t2 = t := by
              rw [hg] at ht2
              exact (Option.some.inj ht2).symm
            subst ht2t
            rw [hk2] at hxA
            exact htn (mem_filterMap_to_g g gA key hA hkey ls t2 hxA)
          · exact ih hnd2 x hxA hxB2
      | some xa =>
        rw [hA2] at hxA
        have hB2 : gB l = none := by
          cases hB3 : gB l with
          | none => rfl
          | some xb => exact (hAB l xa xb hA2 hB3).elim
        rw [hB2] at hxB
        rcases List.mem_cons.mp hxA with rfl | hxA2
        · obtain ⟨t2, ht2, hk2⟩ := hA l x hA2
          have ht2t : t2 = t := by
            rw [hg] at ht2
            exact (Option.some.inj ht2).symm
          subst ht2t
          rw [hk2] at hxB
          exact htn (mem_filterMap_to_g g gB key hB hkey ls t2 hxB)
        · exact ih hnd2 x hxA2 hxB

theorem winDevice_inj (t u : String) (h : winDevice t = winDevice u) : t = u := by
  unfold winDevice at h
  have h2 := congrArg String.data h
  rw [String.data_append, String.data_append] at h2
  exact String.ext (List.append_cancel_left h2)

theorem rows3f_token (l x : String) (h : rows3f l = some x) :
    ∃ t, winTokenf l = some t ∧ x = winDevice t := by
  unfold rows3f at h
  cases hk : rowKey l with
  | none => rw [hk] at h; exact Option.noConfusion h
  | some ab =>
    obtain ⟨a, b⟩ := ab
    simp only [hk] at h
    by_cases h3 : b = "3"
    · rw [if_pos h3] at h
      exact ⟨a, by simp [winTokenf, hk], (Option.some.inj h).symm⟩
    · rw [if_neg h3] at h
      exact Option.noConfusion h

theorem rows4f_token (l x : String) (h : rows4f l = some x) :
    ∃ t, winTokenf l = some t ∧ x = winDevice t := by
  unfold rows4f at h
  cases hk : rowKey l with
  | none => rw [hk] at h; exact Option.noConfusion h
  | some ab =>
    obtain ⟨a, b⟩ := ab
    simp only [hk] at h
    by_cases h4 : b = "4"
    · rw [if_pos h4] at h
      exact ⟨a, by simp [winTokenf, hk], (Option.some.inj h).symm⟩
    · rw [if_neg h4] at h
      exact Option.noConfusion h

theorem rows34f_excl (l x y : String) (hx : rows3f l = some x)
    (hy : rows4f l = some y) : False := by
  unfold rows3f at hx
  unfold rows4f at hy
  cases hk : rowKey l with
  | none => rw [hk] at hx; exact Option.noConfusion hx
  | some ab =>
    obtain ⟨a, b⟩ := ab
    simp only [hk] at hx hy
    by_cases h3 : b = "3"
    · rw [h3] at hy; simp at hy
    · rw [if_neg h3] at hx; exact Option.noConfusion hx

theorem winStep_eq_rowKey (ret : ListRet) (line : String) :
    winStep ret line =
      (match rowKey line with
       | some (a, b) =>
         if b = "3" then { ret with disks := ret.disks ++ [winDevice a] }
         else if b = "4" then { ret with SSDs := ret.SSDs ++ [winDevice a] }
         else ret
       | none => ret) := by
  cases hs : pySplitWs line with
  | nil => simp [winStep, rowKey, hs]
  | cons a l1 =>
    cases l1 with
    | nil => simp [winStep, rowKey, hs]
    | cons b l2 =>
      cases l2 with
      | nil => cases hd : (pyIsDigit a && pyIsDigit b) <;>
          simp [winStep, rowKey, hs, hd]
      | cons c l3 => simp [winStep, rowKey, hs]

theorem win_foldl_eq (lines : List String) :
    ∀ ds ss : List String,
      lines.foldl winStep { disks := ds, SSDs := ss } =
        { disks := ds ++ rows3 lines, SSDs := ss ++ rows4 lines } := by
  induction lines with
  | nil => intro ds ss; simp [rows3, rows4]
  | cons l ls ih =>
    intro ds ss
    rw [List.foldl_cons, winStep_eq_rowKey]
    cases hk : rowKey l with
    | none =>
      simp only [hk]
      rw [ih ds ss]
      simp [rows3, rows4, List.filterMap_cons, rows3f, rows4f, hk]
    | some ab =>
      obtain ⟨a, b⟩ := ab
      simp only [hk]
      by_cases h3 : b = "3"
      · rw [if_pos h3, ih (ds ++ [winDevice a]) ss]
        have hr3 : rows3 (l :: ls) = winDevice a :: rows3 ls := by
          simp [rows3, List.filterMap_cons, rows3f, hk, h3]
        have hr4 : rows4 (l :: ls) = rows4 ls := by
          simp [rows4, List.filterMap_cons, rows4f, hk, h3]
        rw [hr3, hr4]
        simp
      · by_cases h4 : b = "4"
        · rw [if_neg h3, if_pos h4, ih ds (ss ++ [winDevice a])]
          have hr3 : rows3 (l :: ls) = rows3 ls := by
            simp [rows3, List.filterMap_cons, rows3f, hk, h4, h3]
          have hr4 : rows4 (l :: ls) = winDevice a :: rows4 ls := by
            simp [rows4, List.filterMap_cons, rows4f, hk, h4]
          rw [hr3, hr4]
          simp
        · rw [if_neg h3, if_neg h4, ih ds ss]
          have hr3 : rows3 (l :: ls) = rows3 ls := by
            simp [rows3, List.filterMap_cons, rows3f, hk, h3]
          have hr4 : rows4 (l :: ls) = rows4 ls := by
            simp [rows4, List.filterMap_cons, rows4f, hk, h4]
          rw [hr3, hr4]

theorem linuxHf_token (e : LinuxEntry) (x : String) (h : linuxHf e = some x) :
    ∃ t, linuxName e = some t ∧ x = id t := by
  obtain ⟨p, cont⟩ := e
  cases cont with
  | error m => simp [linuxHf] at h
  | ok s =>
    cases hn : linuxName (p, Except.ok s) with
    | none => simp [linuxHf, hn] at h
    | some d =>
      simp only [linuxHf, hn] at h
      by_cases h1 : pyRead1 s = "1"
      · rw [if_pos h1] at h
        exact ⟨d, rfl, (Option.some.inj h).symm⟩
      · rw [if_neg h1] at h
        exact Option.noConfusion h

theorem linuxSf_token (e : LinuxEntry) (x : String) (h : linuxSf e = some x) :
    ∃ t, linuxName e = some t ∧ x = id t := by
  obtain ⟨p, cont⟩ := e
  cases cont with
  | error m => simp [linuxSf] at h
  | ok s =>
    cases hn : linuxName (p, Except.ok s) with
    | none => simp [linuxSf, hn] at h
    | some d =>
      simp only [linuxSf, hn] at h
      by_cases h0 : pyRead1 s = "0"
      · rw [if_pos h0] at h
        exact ⟨d, rfl, (Option.some.inj h).symm⟩
      · rw [if_neg h0] at h
        exact Option.noConfusion h

theorem linuxHSf_excl (e : LinuxEntry) (x y : String) (hx : linuxHf e = some x)
    (hy : linuxSf e = some y) : False := by
  obtain ⟨p, cont⟩ := e
  cases cont with
  | error m => simp [linuxHf] at hx
  | ok s =>
    cases hn : linuxName (p, Except.ok s) with
    | none => simp [linuxHf, hn] at hx
    | some d =>
      simp only [linuxHf, hn] at hx
      simp only [linuxSf, hn] at hy
      by_cases h1 : pyRead1 s = "1"
      · rw [h1] at hy; simp at hy
      · rw [if_neg h1] at hx; exact Option.noConfusion hx

theorem linuxStep_ok_eq (ret : ListRet) (p s : String) :
    linuxStep ret (p, Except.ok s) =
      (match (pySplitChar '/' [] p.toList)[3]? with
       | none => Except.error "IndexError"
       | some device =>
         if pyRead1 s = "0" then
           Except.ok { ret with SSDs := ret.SSDs ++ [String.mk device] }
         else if pyRead1 s = "1" then
           Except.ok { ret with disks := ret.disks ++ [String.mk device] }
         else Except.ok ret) := rfl

theorem linux_foldlM_ok (entries : List LinuxEntry) :
    ∀ (ds ss : List String) (r : ListRet),
      List.foldlM linuxStep { disks := ds, SSDs := ss } entries = Except.ok r →
      r = { disks := ds ++ linuxH entries, SSDs := ss ++ linuxS entries } := by
  induction entries with
  | nil =>
    intro ds ss r h
    have h2 : ({ disks := ds, SSDs := ss } : ListRet) = r := Except.ok.inj h
    rw [← h2]
    simp [linuxH, linuxS]
  | cons e es ih =>
    intro ds ss r h
    obtain ⟨p, cont⟩ := e
    rw [foldlM_except_cons] at h
    cases cont with
    | error m =>
      rw [show linuxStep { disks := ds, SSDs := ss } (p, Except.error m)
          = Except.error m from rfl, except_error_bind] at h
      exact Except.noConfusion h
    | ok s =>
      rw [linuxStep_ok_eq] at h
      cases hg : (pySplitChar '/' [] p.toList)[3]? with
      | none =>
        rw [hg] at h
        rw [except_error_bind] at h
        exact Except.noConfusion h
      | some device =>
        simp only [hg] at h
        have hname : linuxName (p, Except.ok s) = some (String.mk device) := by
          show ((pySplitChar '/' [] p.toList)[3]?).map (fun cs => String.mk cs)
            = some (String.mk device)
          rw [hg]
          rfl
        by_cases h0 : pyRead1 s = "0"
        · rw [if_pos h0, except_ok_bind] at h
          rw [ih ds (ss ++ [String.mk device]) r h]
          have hH : linuxH ((p, Except.ok s) :: es) = linuxH es := by
            simp [linuxH, List.filterMap_cons, linuxHf, hname, h0]
          have hS : linuxS ((p, Except.ok s) :: es)
              = String.mk device :: linuxS es := by
            simp [linuxS, List.filterMap_cons, linuxSf, hname, h0]
          rw [hH, hS]
          simp
        · by_cases h1 : pyRead1 s = "1"
          · rw [if_neg h0, if_pos h1, except_ok_bind] at h
            rw [ih (ds ++ [String.mk device]) ss r h]
            have hH : linuxH ((p, Except.ok s) :: es)
                = String.mk device :: linuxH es := by
              simp [linuxH, List.filterMap_cons, linuxHf, hname, h1]
            have hS : linuxS ((p, Except.ok s) :: es) = linuxS es := by
              simp [linuxS, List.filterMap_cons, linuxSf, hname, h1, h0]
            rw [hH, hS]
            simp
          · rw [if_neg h0, if_neg h1, except_ok_bind] at h
            rw [ih ds ss r h]
            have hH : linuxH ((p, Except.ok s) :: es) = linuxH es := by
              simp [linuxH, List.filterMap_cons, linuxHf, hname, h1]
            have hS : linuxS ((p, Except.ok s) :: es) = linuxS es := by
              simp [linuxS, List.filterMap_cons, linuxSf, hname, h0]
            rw [hH, hS]

theorem windows_lists_disjoint (lines : List String)
    (hnd : (winTokens lines).Nodup) :
    ∀ x, x ∈ rows3 lines → x ∈ rows4 lines → False :=
  filterMap_key_disjoint winTokenf rows3f rows4f winDevice winDevice_inj
    rows3f_token rows4f_token rows34f_excl lines hnd

theorem linux_lists_disjoint (entries : List LinuxEntry)
    (hnd : (linuxNames entries).Nodup) :
    ∀ x, x ∈ linuxH entries → x ∈ linuxS entries → False :=
  filterMap_key_disjoint linuxName linuxHf linuxSf id (fun _ _ h => h)
    linuxHf_token linuxSf_token linuxHSf_excl entries hnd

theorem disjointB_of (as bs : List String) (h : ∀ x ∈ as, x ∈ bs → False) :
    disjointB as bs = true := by
  unfold disjointB
  rw [List.all_eq_true]
  intro a ha
  have hnb : a ∉ bs := fun hb => h a ha hb
  simp [hnb]

theorem parse_preserves_inv (ret ret2 : GeomRet) (device : String)
    (hp : parse_geom_attribs ret device = Except.ok ret2)
    (hinv : ∀ n ∈ ret.SSDs, (ret.disks n).isSome = true) :
    ∀ n ∈ ret2.SSDs, (ret2.disks n).isSome = true := by
  unfold parse_geom_attribs at hp
  cases hg : geomTmp device "Geom name" with
  | none => rw [hg] at hp; exact Except.noConfusion hp
  | some v =>
    rw [hg] at hp
    cases v with
    | int n => exact Except.noConfusion hp
    | pynone => exact Except.noConfusion hp
    | str name =>
      by_cases hcd : pyStartsWith name "cd" = true
      · simp only [hcd, if_true] at hp
        rw [← Except.ok.inj hp]
        exact hinv
      · simp only [hcd, Bool.false_eq_true, if_false] at hp
        rw [← Except.ok.inj hp]
        intro n hn
        by_cases hrr : geomRecord device "rotationrate" = some (PyVal.int 0)
        · rw [if_pos hrr] at hn
          rcases List.mem_append.mp hn with hold | hnew
          · by_cases hne : n = name
            · simp [hne]
            · simp only [hne, if_neg]
              simpa using hinv n hold
          · have : n = name := by simpa using hnew
            simp [this]
        · rw [if_neg hrr] at hn
          by_cases hne : n = name
          · simp [hne]
          · simp only [hne, if_neg]
            simpa using hinv n hn

theorem geom_fold_inv (blocks : List (List Char)) :
    ∀ (ret r : GeomRet),
      (∀ n ∈ ret.SSDs, (ret.disks n).isSome = true) →
      List.foldlM (fun ret block => parse_geom_attribs ret (String.mk block))
        ret blocks = Except.ok r →
      ∀ n ∈ r.SSDs, (r.disks n).isSome = true := by
  induction blocks with
  | nil =>
    intro ret r hinv h
    have h2 : ret = r := Except.ok.inj h
    rw [← h2]
    exact hinv
  | cons b bs ih =>
    intro ret r hinv h
    rw [foldlM_except_cons] at h
    cases hp : parse_geom_attribs ret (String.mk b) with
    | error m =>
      rw [hp, except_error_bind] at h
      exact Except.noConfusion h
    | ok ret2 =>
      rw [hp, except_ok_bind] at h
      exact ih ret2 r (parse_preserves_inv ret ret2 (String.mk b) hp hinv) h

/-- C9 counterexample: on Windows, two valid rows for the same physical
drive index with media types 3 and 4 put the identifier
`\\.\PhysicalDrive0` in both the HDD list and the SSD list. -/
theorem duplicate_drive_index_both_lists_cex :
    (_windows_disks 0 "0 3\n0 4").disks = ["\\\\.\\PhysicalDrive0"] ∧
    (_windows_disks 0 "0 3\n0 4").SSDs = ["\\\\.\\PhysicalDrive0"] := by
  decide

/-- C9 amended: the claimed invariant holds whenever no device occurs more
than once in the input: on Windows, if the first tokens of the valid data
rows are pairwise distinct, the HDD and SSD lists are disjoint; on Linux,
if the device names derived from the discovered paths are pairwise
distinct, a returned inventory has disjoint lists.  (Duplicate Windows rows
for one index with both media types break the invariant, as the
counterexample shows.)  On FreeBSD the `disks` mapping covers all disks
including SSDs, so instead of disjointness every SSD name holds a record in
the `disks` mapping. -/
theorem no_cross_listing_when_unique (retcode : Int) (sout : String)
    (entries : List LinuxEntry)
    (hw : (winTokens (pySplitLines sout)).Nodup)
    (hl : (linuxNames entries).Nodup) :
    disjointB (_windows_disks retcode sout).disks
      (_windows_disks retcode sout).SSDs = true ∧
    (∀ r, _linux_disks entries = Except.ok r →
      disjointB r.disks r.SSDs = true) ∧
    (∀ dev r, _freebsd_geom dev = Except.ok r →
      r.SSDs.all (fun n => (r.disks n).isSome) = true) := by
  refine ⟨?_, ?_, ?_⟩
  · unfold _windows_disks
    by_cases hz : retcode ≠ 0
    · rw [if_pos hz]
      rfl
    · rw [if_neg hz]
      rw [show (pySplitLines sout).foldl winStep { disks := [], SSDs := [] }
          = List.foldl winStep { disks := [], SSDs := [] } (pySplitLines sout)
          from rfl]
      rw [win_foldl_eq (pySplitLines sout) [] []]
      exact disjointB_of _ _ (by
        intro x hx3 hx4
        exact windows_lists_disjoint (pySplitLines sout) hw x
          (by simpa using hx3) (by simpa using hx4))
  · intro r hr
    rw [linux_foldlM_ok entries [] [] r hr]
    exact disjointB_of _ _ (by
      intro x hxh hxs
      exact linux_lists_disjoint entries hl x
        (by simpa using hxh) (by simpa using hxs))
  · intro dev r hr
    rw [List.all_eq_true]
    intro n hn
    exact geom_fold_inv (splitBlank [] dev.toList)
      { disks := fun _ => none, SSDs := [] } r (by intro n2 hn2; cases hn2)
      hr n hn

theorem no_cross_listing_when_unique_witness :
    disjointB (_windows_disks 0 "0 3\n1 4").disks
      (_windows_disks 0 "0 3\n1 4").SSDs = true :=
  (no_cross_listing_when_unique 0 "0 3\n1 4"
    [("/sys/block/sda/queue/rotational", Except.ok "1"),
     ("/sys/block/sdb/queue/rotational", Except.ok "0")]
    (by decide) (by decide)).1

end Disks
